import Mathlib

/-!
# Energy-Tracker: verification of the leaderboard query engine and the
statistics aggregation engine

Shallow embedding of the server-side controllers of the Energy-Tracker
repository:

* `src/public/scripts/UtilsController.mjs` — the power calculator
  (`getAppliancePower`, `getLocationPower`);
* `src/models/ApplianceTypeModel.mjs` and `src/models/RegionPowerModel.mjs`
  — the two static reference tables;
* `src/controllers/StatisticsController.mjs` — `getAggregatedStats`;
* `src/controllers/LeaderboardController.mjs` — `calculateSortValues`,
  `compareEntries`, `getEntries`.

Modelling conventions:

* JavaScript numbers are rationals (`ℚ`).  A field whose `Number(...)`
  coercion yields `NaN` is modelled as `none : Option ℚ`; the pervasive
  `Number(x) || 0` idiom becomes `numOr0`.
* A possibly-missing string field is `Option String`; the JS falsy test
  on such a field (`!x`, `x || d`) treats `none` and `some ""` as falsy.
* JS objects used as string-keyed accumulators (`obj[k] = (obj[k]||0)+v`)
  are association lists in insertion order (`bump` / `getOr0`), which is
  exactly the behaviour of `Object.entries` on such objects.
* Appliance list elements are modelled as present appliance records
  (the `if (app)` null-guard inside `getLocationPower` collapses);
  a missing `type` object or a missing `type.name` is `typeName = none`.
* The one statement in the read path that can throw — the sanitising
  projection `entry.appliances.map(...)` when `appliances` is not an
  array — is modelled in the `Except` monad.
-/

namespace EnergyTracker

/-! ## Data model -/

/-- One row of the Appliance Catalog (`ApplianceTypeModel`): a type name and
its rated wattage.  `watts = none` models a `watts` field that is not a
number (the source guards with `typeof appType.watts !== "number"`). -/
structure ApplianceTypeModel where
  name : String
  watts : Option ℚ
  deriving DecidableEq, Repr

/-- An appliance instance as stored on an entry: `{ type, hours, quantity }`.
`typeName` is `appliance.type?.name` (`none` when the `type` object or its
`name` is missing); `hours`/`quantity` are `none` when their `Number(...)`
coercion is `NaN`. -/
structure Appliance where
  typeName : Option String
  hours : Option ℚ
  quantity : Option ℚ
  deriving DecidableEq, Repr

/-- A shared leaderboard entry (`LeaderboardItemModel` record).
`appliances = none` models a missing / non-array `appliances` field. -/
structure Entry where
  publicId : String
  privateId : String
  address : String
  region : Option String
  appliances : Option (List Appliance)
  deriving DecidableEq, Repr

/-- One row of the Region Power Mix table (`RegionPowerModel`): a region
name and its percentage share per (lower-case) source name, in insertion
order. -/
structure RegionPowerModel where
  name : String
  powerSources : List (String × ℚ)
  deriving DecidableEq, Repr

/-! ## JavaScript value helpers -/

/-- `Number(x) || 0`: a `NaN` coercion (modelled `none`) and `0` both give
`0`; every other number passes through — including negative numbers. -/
def numOr0 : Option ℚ → ℚ
  | none => 0
  | some q => q

/-- `s || d` on a possibly-missing string: `undefined`/`null` and the empty
string are falsy and fall back to the default. -/
def strOr (s : Option String) (d : String) : String :=
  match s with
  | none => d
  | some s => if s = "" then d else s

/-- JS falsiness of a possibly-missing string (`!x`). -/
def strFalsy : Option String → Bool
  | none => true
  | some s => s = ""

/-- `s.toLowerCase()` on ASCII data, modelled over the character list so
that it evaluates by kernel reduction. -/
def jsToLower (s : String) : String :=
  String.mk (s.data.map Char.toLower)

/-- `s.charAt(0).toUpperCase() + s.slice(1)`. -/
def capitalize (s : String) : String :=
  match s.toList with
  | [] => s
  | c :: cs => String.mk (c.toUpper :: cs)

/-! ## String-keyed accumulator objects -/

/-- The accumulator idiom `if (!m[k]) { m[k] = 0 }; m[k] += v` on a plain
object, keys kept in insertion order. -/
def bump : List (String × ℚ) → String → ℚ → List (String × ℚ)
  | [], key, v => [(key, v)]
  | p :: rest, key, v =>
      if p.1 = key then (p.1, p.2 + v) :: rest else p :: bump rest key v

/-- The read idiom `m[k] || 0`. -/
def getOr0 : List (String × ℚ) → String → ℚ
  | [], _ => 0
  | p :: rest, key => if p.1 = key then p.2 else getOr0 rest key

/-- Sum of the values of an accumulator object. -/
def valSum (m : List (String × ℚ)) : ℚ :=
  (m.map Prod.snd).sum

/-! ## Static reference data -/

/-- `ApplianceTypeModel.types` — the fixed Appliance Catalog. -/
def ApplianceTypeModel.types : List ApplianceTypeModel :=
  [⟨"Refrigerator", some 100⟩,
   ⟨"Air Conditioner", some 350⟩,
   ⟨"Heater", some 1500⟩,
   ⟨"Washing Machine", some 500⟩,
   ⟨"Dryer", some 3000⟩,
   ⟨"Dishwasher", some 1800⟩,
   ⟨"Oven", some 2150⟩,
   ⟨"Microwave", some 1000⟩,
   ⟨"Toaster", some 800⟩,
   ⟨"Coffee Maker", some 900⟩,
   ⟨"Television", some 150⟩,
   ⟨"Computer", some 200⟩,
   ⟨"Lamp", some 60⟩]

/-- `RegionPowerModel.data` — the fixed Region Power Mix table. -/
def RegionPowerModel.data : List RegionPowerModel :=
  [⟨"NSW", [("wind", 12), ("solar", 15), ("gas", 25), ("coal", 48)]⟩,
   ⟨"VIC", [("wind", 20), ("solar", 22), ("gas", 30), ("coal", 28)]⟩,
   ⟨"QLD", [("wind", 10), ("solar", 20), ("gas", 25), ("coal", 45)]⟩,
   ⟨"WA", [("wind", 15), ("solar", 20), ("gas", 35), ("coal", 30)]⟩,
   ⟨"SA", [("wind", 40), ("solar", 30), ("gas", 20), ("coal", 10)]⟩,
   ⟨"TAS", [("wind", 60), ("solar", 20), ("gas", 10), ("coal", 10)]⟩,
   ⟨"ACT", [("wind", 30), ("solar", 40), ("gas", 20), ("coal", 10)]⟩,
   ⟨"NT", [("wind", 20), ("solar", 30), ("gas", 40), ("coal", 10)]⟩]

/-! ## Power calculator (`UtilsController`) -/

/-- `UtilsController.getAppliancePower(appliance)`: returns `0` when the
instance is null, its `type`/`type.name` is falsy, the name is unmatched in
the catalog, or the matched row's `watts` is not a number; otherwise
`watts * (Number(hours) || 0) * (Number(quantity) || 0)`. -/
def getAppliancePower (types : List ApplianceTypeModel) : Option Appliance → ℚ
  | none => 0
  | some a =>
      if strFalsy a.typeName then 0
      else
        match types.find? (fun ty => some ty.name = a.typeName) with
        | none => 0
        | some appType =>
            match appType.watts with
            | none => 0
            | some w => w * numOr0 a.hours * numOr0 a.quantity

/-- `UtilsController.getLocationPower(appliances)`: `0` for a non-array
input, otherwise the sum of `getAppliancePower` over the list. -/
def getLocationPower (types : List ApplianceTypeModel) :
    Option (List Appliance) → ℚ
  | none => 0
  | some apps => apps.foldl (fun sum app => sum + getAppliancePower types (some app)) 0

example :
    getAppliancePower ApplianceTypeModel.types
      (some ⟨some "Refrigerator", some 2, some 3⟩) = 600 := by
  norm_num +decide [getAppliancePower, ApplianceTypeModel.types, strFalsy, numOr0, List.find?]

example :
    getLocationPower ApplianceTypeModel.types
      (some [⟨some "Lamp", some 1, some 2⟩, ⟨some "Nothing", some 5, some 5⟩]) = 120 := by
  norm_num +decide [getLocationPower, getAppliancePower, ApplianceTypeModel.types, strFalsy,
    numOr0, List.find?]

/-! ## Statistics aggregation engine (`StatisticsController.getAggregatedStats`) -/

/-- `entry.region || "Unknown"` — the default region bucket name. -/
def Entry.regionName (e : Entry) : String :=
  strOr e.region "Unknown"

/-- The three accumulators threaded through the per-entry loop of
`getAggregatedStats`. -/
structure AggState where
  grandTotalPower : ℚ
  totalRegionPower : List (String × ℚ)
  totalAppliances : List (String × ℚ)
  deriving DecidableEq, Repr

/-- One iteration of `entries.forEach(...)` in `getAggregatedStats`:
add the entry's location power to the grand total and to its region
bucket, and each appliance's power to its type-name bucket. -/
def aggStep (types : List ApplianceTypeModel) (st : AggState) (e : Entry) : AggState :=
  let locationPower := getLocationPower types e.appliances
  { grandTotalPower := st.grandTotalPower + locationPower
    totalRegionPower := bump st.totalRegionPower e.regionName locationPower
    totalAppliances :=
      (e.appliances.getD []).foldl
        (fun m app =>
          bump m (strOr app.typeName "Unknown") (getAppliancePower types (some app)))
        st.totalAppliances }

/-- One iteration of `regionPowerData.forEach(...)`: if the region's
accumulated total is positive, distribute it over the region's source mix,
capitalizing the source names (`regionTotal * (percentage / 100)`; on
numeric percentages the source's `Number(percentage || 0)` is the
identity). -/
def sourceStep (totalRegionPower : List (String × ℚ))
    (m : List (String × ℚ)) (regionPower : RegionPowerModel) : List (String × ℚ) :=
  let regionTotal := getOr0 totalRegionPower regionPower.name
  if 0 < regionTotal then
    regionPower.powerSources.foldl
      (fun m' sp => bump m' (capitalize sp.1) (regionTotal * (sp.2 / 100))) m
  else m

/-- The JSON payload of `getAggregatedStats`: the `{name, weight}` lists are
exactly the accumulator objects' `Object.entries`. -/
structure AggResult where
  totalEnergy : ℚ
  stateData : List (String × ℚ)
  sourceData : List (String × ℚ)
  applianceData : List (String × ℚ)
  deriving DecidableEq, Repr

/-- The body of `getAggregatedStats` minus the empty-set early return:
the per-entry loop followed by the region→source decomposition. -/
def aggCompute (types : List ApplianceTypeModel) (regionPowerData : List RegionPowerModel)
    (entries : List Entry) : AggResult :=
  let st := entries.foldl (aggStep types) ⟨0, [], []⟩
  let totalPowerSources := regionPowerData.foldl (sourceStep st.totalRegionPower) []
  ⟨st.grandTotalPower, st.totalRegionPower, totalPowerSources, st.totalAppliances⟩

/-- `StatisticsController.getAggregatedStats`: reads the store
(`LeaderboardItemModel.data || []`), answers the all-zero payload for an
empty store, and otherwise runs the aggregation over the fixed
`RegionPowerModel.data` table. -/
def getAggregatedStats (types : List ApplianceTypeModel)
    (data : Option (List Entry)) : AggResult :=
  let entries := data.getD []
  if entries.isEmpty then ⟨0, [], [], []⟩
  else aggCompute types RegionPowerModel.data entries

example :
    getAggregatedStats ApplianceTypeModel.types
      (some [⟨"p", "q", "a", some "NSW", some [⟨some "Lamp", some 10, some 1⟩]⟩]) =
      ⟨600, [("NSW", 600)],
        [("Wind", 72), ("Solar", 90), ("Gas", 150), ("Coal", 288)],
        [("Lamp", 600)]⟩ := by
  norm_num +decide [getAggregatedStats, aggCompute, aggStep, sourceStep, getLocationPower,
    getAppliancePower, ApplianceTypeModel.types, RegionPowerModel.data, strFalsy, strOr,
    numOr0, List.find?, Entry.regionName, bump, getOr0, capitalize]

/-! ## Leaderboard query engine (`LeaderboardController`) -/

def PAGE_SIZE : ℕ := 16

/-- The `{ sortValue, totalPower }` pair returned by `calculateSortValues`. -/
structure SortValues where
  sortValue : ℚ
  totalPower : ℚ
  deriving DecidableEq, Repr

/-- The spread object `{ ...entry, sortValue, totalPower }` fed to the sort. -/
structure SortedEntry where
  entry : Entry
  sortValue : ℚ
  totalPower : ℚ
  deriving DecidableEq, Repr

/-- `LeaderboardController.calculateSortValues(entry, powerSourceFilter)`:
`totalPower` is always the entry's location power; `sortValue` is the
region's green percentage over 100 under `"GREEN"`, the named source's
share over 100 under any other non-`"ANY"` filter (region looked up by
`r.name === entry.region` in `RegionPowerModel.data`, `sources` defaulting
to the empty object), and the location power itself under `"ANY"`. -/
def calculateSortValues (types : List ApplianceTypeModel) (e : Entry)
    (powerSourceFilter : String) : SortValues :=
  let totalPower := getLocationPower types e.appliances
  let region := RegionPowerModel.data.find? (fun r => some r.name = e.region)
  let sources := (region.map RegionPowerModel.powerSources).getD []
  let sortValue :=
    if powerSourceFilter = "GREEN" then
      (getOr0 sources "solar" + getOr0 sources "wind" + getOr0 sources "hydro") / 100
    else if powerSourceFilter ≠ "ANY" then
      getOr0 sources (jsToLower powerSourceFilter) / 100
    else totalPower
  ⟨sortValue, totalPower⟩

/-- `LeaderboardController.compareEntries(a, b, sortOrder, powerSourceFilter)`:
the numeric comparator handed to `Array.prototype.sort`. -/
def compareEntries (a b : SortedEntry) (sortOrder powerSourceFilter : String) : ℚ :=
  let sortValueDiff :=
    if sortOrder = "HIGH" then b.sortValue - a.sortValue else a.sortValue - b.sortValue
  if sortValueDiff ≠ 0 then sortValueDiff
  else if powerSourceFilter ≠ "ANY" then
    if sortOrder = "HIGH" then b.totalPower - a.totalPower else a.totalPower - b.totalPower
  else 0

/-- The raw query-string parameters of `GET /leaderboard/entries`.
`page` is the result of `parseInt(req.query.page)` (`none` = absent or
`NaN`); the string filters are `none` when absent. -/
structure QueryRequest where
  page : Option ℤ
  appType : Option String
  powerSource : Option String
  region : Option String
  sortOrder : Option String
  deriving DecidableEq, Repr

/-- `parseInt(req.query.page) || 1` — `NaN` and `0` both fall back to `1`. -/
def QueryRequest.pageNum (req : QueryRequest) : ℤ :=
  match req.page with
  | none => 1
  | some n => if n = 0 then 1 else n

/-- The sanitised projection of one appliance, `{ type, hours, quantity }`
(all of the appliance's fields are kept). -/
structure SanitizedAppliance where
  typeName : Option String
  hours : Option ℚ
  quantity : Option ℚ
  deriving DecidableEq, Repr

/-- A sanitised leaderboard entry: `{ address, region, appliances, publicId }`
and nothing else — in particular no `privateId` field. -/
structure SanitizedEntry where
  address : String
  region : Option String
  appliances : List SanitizedAppliance
  publicId : String
  deriving DecidableEq, Repr

/-- The JSON payload of a successful `getEntries` response. -/
structure QueryResult where
  entries : List SanitizedEntry
  currentPage : ℤ
  totalPages : ℕ
  totalEntries : ℕ
  deriving DecidableEq, Repr

/-- The predicate of `LeaderboardItemModel.data.filter(...)` in
`getEntries`: the region filter and the appliance-type filter. -/
def entryPassesFilter (regionFilter appTypeFilter : String) (e : Entry) : Bool :=
  if regionFilter ≠ "ALL" ∧ e.region ≠ some regionFilter then false
  else if appTypeFilter ≠ "ANY" then
    match e.appliances with
    | none => false
    | some apps => apps.any (fun app => app.typeName = some appTypeFilter)
  else true

/-- The per-entry projection inside `sanitizedEntries`: throws (a JS
`TypeError`) when `entry.appliances` is not an array, because the source
calls `entry.appliances.map(...)` unguarded. -/
def sanitizeEntry (se : SortedEntry) : Except String SanitizedEntry :=
  match se.entry.appliances with
  | none => .error "TypeError: entry.appliances.map is not a function"
  | some apps =>
      .ok ⟨se.entry.address, se.entry.region,
        apps.map (fun app => ⟨app.typeName, app.hours, app.quantity⟩),
        se.entry.publicId⟩

/-- `entriesForPage.map(entry => ({...}))`, with the first thrown
`TypeError` aborting the response. -/
def sanitizeEntries : List SortedEntry → Except String (List SanitizedEntry)
  | [] => .ok []
  | se :: rest =>
      match sanitizeEntry se with
      | .error err => .error err
      | .ok s =>
          match sanitizeEntries rest with
          | .error err => .error err
          | .ok ss => .ok (s :: ss)

/-- `Math.ceil(n / d)` on natural inputs with `d > 0`. -/
def jsCeilDiv (n d : ℕ) : ℕ :=
  (n + d - 1) / d

/-- `Math.ceil(totalEntries / PAGE_SIZE) || 1`. -/
def totalPagesOf (totalEntries : ℕ) : ℕ :=
  let t := jsCeilDiv totalEntries PAGE_SIZE
  if t = 0 then 1 else t

/-- `Math.max(1, Math.min(page, totalPages))`. -/
def safePageOf (page : ℤ) (totalPages : ℕ) : ℤ :=
  max 1 (min page (totalPages : ℤ))

/-- The filter/score/sort prefix of `getEntries`, already resolved to the
defaulted parameter values. -/
def sortedEntriesOf (types : List ApplianceTypeModel) (entries : List Entry)
    (appTypeFilter powerSourceFilter regionFilter sortOrder : String) : List SortedEntry :=
  let filteredEntries := entries.filter (entryPassesFilter regionFilter appTypeFilter)
  let entriesWithSortValue := filteredEntries.map (fun e =>
    let sv := calculateSortValues types e powerSourceFilter
    SortedEntry.mk e sv.sortValue sv.totalPower)
  entriesWithSortValue.mergeSort
    (fun a b => compareEntries a b sortOrder powerSourceFilter ≤ 0)

/-- The body of `getEntries` after the query-string parameters have been
resolved (`x || default`). -/
def getEntriesCore (types : List ApplianceTypeModel) (data : Option (List Entry))
    (page : ℤ) (appTypeFilter powerSourceFilter regionFilter sortOrder : String) :
    Except String QueryResult :=
  match data with
  | none => .error "LeaderboardItemModel.data is not available"
  | some entries =>
      let sorted := sortedEntriesOf types entries appTypeFilter powerSourceFilter
        regionFilter sortOrder
      let totalEntries := sorted.length
      let totalPages := totalPagesOf totalEntries
      let safePage := safePageOf page totalPages
      let startIndex : ℕ := ((safePage - 1) * (PAGE_SIZE : ℤ)).toNat
      let entriesForPage := (sorted.drop startIndex).take PAGE_SIZE
      match sanitizeEntries entriesForPage with
      | .error err => .error err
      | .ok sanitized => .ok ⟨sanitized, safePage, totalPages, totalEntries⟩

/-- `LeaderboardController.getEntries`: resolve the defaults
(`req.query.x || default`) and run the query pipeline. -/
def getEntries (types : List ApplianceTypeModel) (data : Option (List Entry))
    (req : QueryRequest) : Except String QueryResult :=
  getEntriesCore types data req.pageNum
    (strOr req.appType "ANY") (strOr req.powerSource "GREEN")
    (strOr req.region "ALL") (strOr req.sortOrder "HIGH")

/-! ## Accumulator lemmas -/

@[simp]
theorem valSum_nil : valSum [] = 0 := rfl

@[simp]
theorem valSum_cons (p : String × ℚ) (m : List (String × ℚ)) :
    valSum (p :: m) = p.2 + valSum m := by
  simp [valSum]

theorem valSum_bump (m : List (String × ℚ)) (k : String) (v : ℚ) :
    valSum (bump m k v) = valSum m + v := by
  induction m with
  | nil => simp [bump]
  | cons p rest ih =>
      by_cases h : p.1 = k
      · simp [bump, h]
        ring
      · simp [bump, h, ih]
        ring

@[simp]
theorem getOr0_nil (k : String) : getOr0 [] k = 0 := rfl

theorem getOr0_bump_self (m : List (String × ℚ)) (k : String) (v : ℚ) :
    getOr0 (bump m k v) k = getOr0 m k + v := by
  induction m with
  | nil => simp [bump, getOr0]
  | cons p rest ih =>
      by_cases h : p.1 = k
      · simp [bump, h, getOr0]
      · simp [bump, h, getOr0, ih]

theorem getOr0_bump_ne (m : List (String × ℚ)) {k' k : String} (v : ℚ) (h : k' ≠ k) :
    getOr0 (bump m k' v) k = getOr0 m k := by
  induction m with
  | nil => simp [bump, getOr0, h]
  | cons p rest ih =>
      by_cases hp : p.1 = k'
      · simp [bump, hp, getOr0, h]
      · simp [bump, hp, getOr0, ih]

/-! ## Aggregation-loop lemmas -/

theorem foldl_aggStep_grand (types : List ApplianceTypeModel) (entries : List Entry) :
    ∀ st : AggState, (entries.foldl (aggStep types) st).grandTotalPower =
      st.grandTotalPower + (entries.map (fun e => getLocationPower types e.appliances)).sum := by
  induction entries with
  | nil => simp
  | cons e rest ih =>
      intro st
      simp [List.foldl_cons, ih, aggStep]
      ring

theorem foldl_aggStep_regions_valSum (types : List ApplianceTypeModel) (entries : List Entry) :
    ∀ st : AggState, valSum (entries.foldl (aggStep types) st).totalRegionPower =
      valSum st.totalRegionPower +
        (entries.map (fun e => getLocationPower types e.appliances)).sum := by
  induction entries with
  | nil => simp
  | cons e rest ih =>
      intro st
      simp [List.foldl_cons, ih, aggStep, valSum_bump]
      ring

theorem sourceStep_nilRegions (m : List (String × ℚ)) (rp : RegionPowerModel) :
    sourceStep [] m rp = m := by
  simp [sourceStep]

theorem foldl_sourceStep_nilRegions (rpd : List RegionPowerModel) :
    ∀ m : List (String × ℚ), rpd.foldl (sourceStep []) m = m := by
  induction rpd with
  | nil => simp
  | cons rp rest ih => intro m; simp [List.foldl_cons, sourceStep_nilRegions, ih]

theorem getAggregatedStats_eq_aggCompute (types : List ApplianceTypeModel)
    (data : Option (List Entry)) :
    getAggregatedStats types data = aggCompute types RegionPowerModel.data (data.getD []) := by
  unfold getAggregatedStats
  by_cases h : (data.getD []).isEmpty
  · rw [List.isEmpty_iff] at h
    simp [h, aggCompute, foldl_sourceStep_nilRegions]
  · simp [h]

/-! ## Region → source decomposition lemmas -/

/-- The per-source contribution the spec ascribes to one region of the
reference table (claim C4's statement side): a region whose accumulated
total `P` is positive contributes `P * percentage / 100` for each mix
entry whose capitalized source name is the bucket asked for, and a region
with no positive total contributes nothing. -/
def specRegionSourceContrib (totalRegionPower : List (String × ℚ))
    (rp : RegionPowerModel) (c : String) : ℚ :=
  if 0 < getOr0 totalRegionPower rp.name then
    (rp.powerSources.map (fun sp =>
      if capitalize sp.1 = c then getOr0 totalRegionPower rp.name * (sp.2 / 100) else 0)).sum
  else 0

theorem getOr0_foldl_bump_sources (t : ℚ) (l : List (String × ℚ)) (c : String) :
    ∀ m : List (String × ℚ),
      getOr0 (l.foldl (fun m' sp => bump m' (capitalize sp.1) (t * (sp.2 / 100))) m) c =
        getOr0 m c + (l.map (fun sp => if capitalize sp.1 = c then t * (sp.2 / 100) else 0)).sum := by
  induction l with
  | nil => simp
  | cons sp rest ih =>
      intro m
      simp only [List.foldl_cons, ih, List.map_cons, List.sum_cons]
      by_cases h : capitalize sp.1 = c
      · rw [h, getOr0_bump_self, if_pos (show c = c from rfl)]
        ring
      · rw [getOr0_bump_ne _ _ h, if_neg h]
        ring

theorem getOr0_foldl_sourceStep (T : List (String × ℚ)) (rpd : List RegionPowerModel)
    (c : String) :
    ∀ m : List (String × ℚ),
      getOr0 (rpd.foldl (sourceStep T) m) c =
        getOr0 m c + (rpd.map (fun rp => specRegionSourceContrib T rp c)).sum := by
  induction rpd with
  | nil => simp
  | cons rp rest ih =>
      intro m
      simp only [List.foldl_cons, ih, List.map_cons, List.sum_cons]
      by_cases h : 0 < getOr0 T rp.name
      · simp only [sourceStep, if_pos h, specRegionSourceContrib,
          getOr0_foldl_bump_sources]
        ring
      · simp only [sourceStep, if_neg h, specRegionSourceContrib]
        ring

theorem foldl_sourceStep_congr {T₁ T₂ : List (String × ℚ)} (rpd : List RegionPowerModel)
    (h : ∀ rp ∈ rpd, getOr0 T₁ rp.name = getOr0 T₂ rp.name) :
    ∀ m : List (String × ℚ), rpd.foldl (sourceStep T₁) m = rpd.foldl (sourceStep T₂) m := by
  induction rpd with
  | nil => simp
  | cons rp rest ih =>
      intro m
      have hrp := h rp (List.mem_cons_self rp rest)
      simp only [List.foldl_cons]
      rw [show sourceStep T₁ m rp = sourceStep T₂ m rp by simp [sourceStep, hrp]]
      exact ih (fun r hr => h r (List.mem_cons_of_mem rp hr)) _

/-! ## Claims about the statistics aggregation engine -/

/-- Claim C1: for every entry set, the aggregated `totalEnergy` equals the
sum of the per-entry location powers, independently of the region and
appliance-type bucketing, and it is `0` for the empty entry set. -/
theorem claim1_totalEnergy_eq_sum_locationPower (types : List ApplianceTypeModel)
    (data : Option (List Entry)) :
    (getAggregatedStats types data).totalEnergy =
      ((data.getD []).map (fun e => getLocationPower types e.appliances)).sum := by
  rw [getAggregatedStats_eq_aggCompute]
  simp [aggCompute, foldl_aggStep_grand]

/-- Claim C3: the weights of the `byRegion` (`stateData`) list sum exactly
to `totalEnergy`, each entry being accumulated into the single region
bucket named by its region code, with the default bucket name `"Unknown"`
used for a missing (or empty) region code. -/
theorem claim3_byRegion_partitions_totalEnergy (types : List ApplianceTypeModel)
    (data : Option (List Entry)) :
    valSum (getAggregatedStats types data).stateData =
      (getAggregatedStats types data).totalEnergy ∧
    (∀ e : Entry, e.region = none ∨ e.region = some "" → e.regionName = "Unknown") := by
  constructor
  · rw [getAggregatedStats_eq_aggCompute]
    simp [aggCompute, foldl_aggStep_grand, foldl_aggStep_regions_valSum]
  · intro e he
    rcases he with h | h <;> simp [Entry.regionName, strOr, h]

/-- Witness for claim C3 at a concrete entry set and a concrete
missing-region entry. -/
theorem claim3_witness :
    valSum (getAggregatedStats ApplianceTypeModel.types
        (some [⟨"p", "q", "a", some "NSW", some [⟨some "Lamp", some 10, some 1⟩]⟩])).stateData =
      (getAggregatedStats ApplianceTypeModel.types
        (some [⟨"p", "q", "a", some "NSW", some [⟨some "Lamp", some 10, some 1⟩]⟩])).totalEnergy ∧
    Entry.regionName ⟨"p", "q", "a", none, none⟩ = "Unknown" := by
  refine ⟨(claim3_byRegion_partitions_totalEnergy ApplianceTypeModel.types _).1, ?_⟩
  exact (claim3_byRegion_partitions_totalEnergy ApplianceTypeModel.types none).2 _ (Or.inl rfl)

/-- Claim C4: the region→source decomposition gives every source bucket
exactly the sum, over the regions of the reference table, of
`regionTotal * percentage / 100` for the mix entries naming that source —
with regions of non-positive accumulated total contributing nothing — and
an entry whose region code is absent from the table adds its location
power to `totalEnergy` and to its `byRegion` bucket while leaving
`bySource` unchanged. -/
theorem claim4_region_source_decomposition (types : List ApplianceTypeModel)
    (data : Option (List Entry)) :
    (∀ c : String,
      getOr0 (getAggregatedStats types data).sourceData c =
        (RegionPowerModel.data.map
          (fun rp => specRegionSourceContrib (getAggregatedStats types data).stateData rp c)).sum) ∧
    (∀ rp : RegionPowerModel, ¬ 0 < getOr0 (getAggregatedStats types data).stateData rp.name →
      ∀ c : String,
        specRegionSourceContrib (getAggregatedStats types data).stateData rp c = 0) ∧
    (∀ e : Entry, e.regionName ∉ RegionPowerModel.data.map RegionPowerModel.name →
      (getAggregatedStats types (some (data.getD [] ++ [e]))).totalEnergy =
        (getAggregatedStats types data).totalEnergy + getLocationPower types e.appliances ∧
      getOr0 (getAggregatedStats types (some (data.getD [] ++ [e]))).stateData e.regionName =
        getOr0 (getAggregatedStats types data).stateData e.regionName +
          getLocationPower types e.appliances ∧
      (getAggregatedStats types (some (data.getD [] ++ [e]))).sourceData =
        (getAggregatedStats types data).sourceData) := by
  rw [getAggregatedStats_eq_aggCompute]
  refine ⟨?_, ?_, ?_⟩
  · intro c
    simp [aggCompute, getOr0_foldl_sourceStep]
  · intro rp h c
    simp [specRegionSourceContrib, if_neg h]
  · intro e he
    rw [getAggregatedStats_eq_aggCompute]
    have hfold :
        (data.getD [] ++ [e]).foldl (aggStep types) (⟨0, [], []⟩ : AggState) =
          aggStep types ((data.getD []).foldl (aggStep types) ⟨0, [], []⟩) e := by
      rw [List.foldl_append]
      rfl
    have hne : ∀ rp ∈ RegionPowerModel.data, e.regionName ≠ rp.name := by
      intro rp hrp heq
      exact he (List.mem_map.mpr ⟨rp, hrp, heq.symm⟩)
    refine ⟨?_, ?_, ?_⟩
    · simp only [aggCompute, Option.getD_some, hfold, aggStep]
    · simp only [aggCompute, Option.getD_some, hfold, aggStep]
      exact getOr0_bump_self _ _ _
    · simp only [aggCompute, Option.getD_some, hfold, aggStep]
      exact foldl_sourceStep_congr RegionPowerModel.data
        (fun rp hrp => getOr0_bump_ne _ _ (hne rp hrp)) []

/-- Witness for claim C4 at a concrete entry set, source bucket, zero
region and unknown-region entry. -/
theorem claim4_witness :
    (getOr0 (getAggregatedStats ApplianceTypeModel.types
        (some [⟨"p", "q", "a", some "NSW", some [⟨some "Lamp", some 10, some 1⟩]⟩])).sourceData
        "Solar" =
      (RegionPowerModel.data.map
        (fun rp => specRegionSourceContrib
          (getAggregatedStats ApplianceTypeModel.types
            (some [⟨"p", "q", "a", some "NSW",
              some [⟨some "Lamp", some 10, some 1⟩]⟩])).stateData rp "Solar")).sum) ∧
    ((getAggregatedStats ApplianceTypeModel.types
        (some ([] ++ [(⟨"p", "q", "a", some "ZZZ", some []⟩ : Entry)]))).sourceData =
      (getAggregatedStats ApplianceTypeModel.types (some [])).sourceData) := by
  constructor
  · exact (claim4_region_source_decomposition ApplianceTypeModel.types _).1 "Solar"
  · exact ((claim4_region_source_decomposition ApplianceTypeModel.types (some [])).2.2
      ⟨"p", "q", "a", some "ZZZ", some []⟩ (by decide)).2.2

/-! ## Claims about the power calculator -/

/-- The appliance-power formula exactly as claim C2 words it:
`wattage × max(0, numeric(dailyHours)) × max(0, numeric(quantity))`, with
`0` for a missing/unmatched instance or type. -/
def appliancePowerClaimed (types : List ApplianceTypeModel) : Option Appliance → ℚ
  | none => 0
  | some a =>
      if strFalsy a.typeName then 0
      else
        match types.find? (fun ty => some ty.name = a.typeName) with
        | none => 0
        | some appType =>
            match appType.watts with
            | none => 0
            | some w => w * max 0 (numOr0 a.hours) * max 0 (numOr0 a.quantity)

/-- Counterexample to claim C2: a Refrigerator (100 W) instance with
`dailyHours = -5` and `quantity = 1`.  The code returns `-500`; the
claimed formula (negative hours clamped to `0`) returns `0`. -/
theorem claim2_counterexample :
    getAppliancePower ApplianceTypeModel.types
        (some ⟨some "Refrigerator", some (-5), some 1⟩) = -500 ∧
    appliancePowerClaimed ApplianceTypeModel.types
        (some ⟨some "Refrigerator", some (-5), some 1⟩) = 0 ∧
    getAppliancePower ApplianceTypeModel.types
        (some ⟨some "Refrigerator", some (-5), some 1⟩) ≠
      appliancePowerClaimed ApplianceTypeModel.types
        (some ⟨some "Refrigerator", some (-5), some 1⟩) := by
  refine ⟨?_, ?_, ?_⟩ <;>
    norm_num +decide [getAppliancePower, appliancePowerClaimed, ApplianceTypeModel.types,
      strFalsy, numOr0, List.find?]

/-- The amended power formula (claim C2 as corrected): `NaN`/non-numeric
hour and quantity values coerce to `0`, but negative values pass through
un-clamped; unmatched instances/types still give `0`.  Written over a
name→wattage lookup view of the catalog, to be compared with the source
function. -/
def appliancePowerAmended (types : List ApplianceTypeModel) : Option Appliance → ℚ
  | none => 0
  | some a =>
      match a.typeName with
      | none => 0
      | some n =>
          if n = "" then 0
          else
            match (types.map (fun t => (t.name, t.watts))).lookup n with
            | some (some w) => w * numOr0 a.hours * numOr0 a.quantity
            | _ => 0

theorem find?_name_eq_lookup (types : List ApplianceTypeModel) (n : String) :
    (types.find? (fun ty => ty.name = n)).map ApplianceTypeModel.watts =
      (types.map (fun t => (t.name, t.watts))).lookup n := by
  induction types with
  | nil => simp
  | cons t rest ih =>
      by_cases h : t.name = n
      · simp [List.find?_cons, List.lookup, h]
      · have h1 : (decide (t.name = n)) = false := by simp [h]
        have h2 : (n == t.name) = false := by simp [Ne.symm h]
        simp only [List.find?_cons, List.map_cons, List.lookup, h1, h2]
        exact ih

/-- Claim C2 as amended: `appliancePower` returns `0` for a missing or
unmatched instance/type (or a non-numeric catalog wattage), and otherwise
`wattage × numeric(dailyHours) × numeric(quantity)` where non-numeric and
`NaN` values coerce to `0` but negative values pass through; it is a total
function into `ℚ` (never throws, never returns `NaN`). -/
theorem claim2_amended (types : List ApplianceTypeModel) (a : Option Appliance) :
    getAppliancePower types a = appliancePowerAmended types a := by
  match a with
  | none => rfl
  | some a =>
      match ha : a.typeName with
      | none => simp [getAppliancePower, appliancePowerAmended, strFalsy, ha]
      | some n =>
          by_cases hn : n = ""
          · simp [getAppliancePower, appliancePowerAmended, strFalsy, ha, hn]
          · simp only [getAppliancePower, appliancePowerAmended, strFalsy, ha, hn,
              if_neg hn, Option.some.injEq, decide_eq_true_eq]
            rw [← find?_name_eq_lookup types n]
            cases hf : types.find? (fun ty => ty.name = n) with
            | none => rfl
            | some appType =>
                obtain ⟨nm, w⟩ := appType
                cases w <;> rfl

/-! ## Claims about the leaderboard score computation -/

/-- The spec's `greenShareFraction(regionMix)`: `(solar + wind + hydro) / 100`
with missing components treated as `0`. -/
def greenShareFraction (shares : List (String × ℚ)) : ℚ :=
  (getOr0 shares "solar" + getOr0 shares "wind" + getOr0 shares "hydro") / 100

/-- The spec's named-source share: the named source's percentage in a region
mix as a 0–1 fraction (mix keys are lower-case), `0` when the source is
unmatched. -/
def namedSourceShare (shares : List (String × ℚ)) (sourceName : String) : ℚ :=
  getOr0 shares (jsToLower sourceName) / 100

/-- The region mix of an entry: the shares of the Region Power Mix row whose
name equals the entry's region code, or the empty mix when unmatched. -/
def entryRegionShares (e : Entry) : List (String × ℚ) :=
  ((RegionPowerModel.data.find? (fun r => some r.name = e.region)).map
    RegionPowerModel.powerSources).getD []

/-- Claim C5: for every entry, `totalPower` is always the entry's location
power, and `sortValue` is the region's green-share fraction under
`"GREEN"`, the named source's 0–1 share (0 when region or source is
unmatched) under any other non-`"ANY"` filter, and the location power
itself under `"ANY"`. -/
theorem claim5_sort_values (types : List ApplianceTypeModel) (e : Entry)
    (powerSourceFilter : String) :
    (calculateSortValues types e powerSourceFilter).totalPower =
      getLocationPower types e.appliances ∧
    (powerSourceFilter = "GREEN" →
      (calculateSortValues types e powerSourceFilter).sortValue =
        greenShareFraction (entryRegionShares e)) ∧
    (powerSourceFilter ≠ "GREEN" → powerSourceFilter ≠ "ANY" →
      (calculateSortValues types e powerSourceFilter).sortValue =
        namedSourceShare (entryRegionShares e) powerSourceFilter) ∧
    (powerSourceFilter = "ANY" →
      (calculateSortValues types e powerSourceFilter).sortValue =
        getLocationPower types e.appliances) := by
  refine ⟨rfl, ?_, ?_, ?_⟩
  · intro h
    simp [calculateSortValues, h, greenShareFraction, entryRegionShares]
  · intro hg ha
    simp [calculateSortValues, hg, ha, namedSourceShare, entryRegionShares]
  · intro h
    simp [calculateSortValues, h]

/-- Witness for claim C5 at a concrete entry under each of the three filter
shapes. -/
theorem claim5_witness :
    (calculateSortValues ApplianceTypeModel.types
        ⟨"p", "q", "a", some "SA", some []⟩ "GREEN").sortValue =
      greenShareFraction (entryRegionShares ⟨"p", "q", "a", some "SA", some []⟩) ∧
    (calculateSortValues ApplianceTypeModel.types
        ⟨"p", "q", "a", some "SA", some []⟩ "Solar").sortValue =
      namedSourceShare (entryRegionShares ⟨"p", "q", "a", some "SA", some []⟩) "Solar" ∧
    (calculateSortValues ApplianceTypeModel.types
        ⟨"p", "q", "a", some "SA", some []⟩ "ANY").sortValue =
      getLocationPower ApplianceTypeModel.types (some []) := by
  refine ⟨?_, ?_, ?_⟩
  · exact (claim5_sort_values ApplianceTypeModel.types _ "GREEN").2.1 rfl
  · exact (claim5_sort_values ApplianceTypeModel.types _ "Solar").2.2.1
      (by decide) (by decide)
  · exact (claim5_sort_values ApplianceTypeModel.types _ "ANY").2.2.2 rfl

/-- Claim C6: the comparator ranks by `sortValue` — descending under
`"HIGH"`, ascending under `"LOW"` — breaking `sortValue` ties by
`totalPower` in the same direction exactly when the power-source filter is
not `"ANY"`, and reporting a tie (0) otherwise; in particular two entries
with equal share and total powers 80 and 40 place the 80-entry first under
`"HIGH"`. -/
theorem claim6_comparator (a b : SortedEntry) (f : String) :
    (compareEntries a b "HIGH" f < 0 ↔
      (b.sortValue < a.sortValue ∨
        (b.sortValue = a.sortValue ∧ f ≠ "ANY" ∧ b.totalPower < a.totalPower))) ∧
    (compareEntries a b "LOW" f < 0 ↔
      (a.sortValue < b.sortValue ∨
        (a.sortValue = b.sortValue ∧ f ≠ "ANY" ∧ a.totalPower < b.totalPower))) ∧
    (∀ o : String, f = "ANY" → a.sortValue = b.sortValue → compareEntries a b o f = 0) ∧
    (a.sortValue = b.sortValue → f ≠ "ANY" → a.totalPower = 80 → b.totalPower = 40 →
      compareEntries a b "HIGH" f < 0) := by
  have key : ∀ (x y p q : ℚ) (g : String),
      ((if x - y ≠ 0 then x - y else if g ≠ "ANY" then p - q else 0) < 0 ↔
        (x < y ∨ (x = y ∧ g ≠ "ANY" ∧ p < q))) := by
    intro x y p q g
    by_cases hxy : x - y = 0
    · have hxy' : x = y := sub_eq_zero.mp hxy
      rw [if_neg (not_not.mpr hxy)]
      by_cases hg : g = "ANY"
      · rw [if_neg (not_not.mpr hg)]
        simp [hxy', hg]
      · rw [if_pos hg]
        constructor
        · intro h
          exact Or.inr ⟨hxy', hg, by linarith⟩
        · rintro (h | ⟨-, -, h⟩) <;> linarith
    · rw [if_pos hxy]
      constructor
      · intro h
        exact Or.inl (by linarith)
      · rintro (h | ⟨heq, -, -⟩)
        · linarith
        · exact absurd (sub_eq_zero.mpr heq) hxy
  have hcH : compareEntries a b "HIGH" f =
      if b.sortValue - a.sortValue ≠ 0 then b.sortValue - a.sortValue
      else if f ≠ "ANY" then b.totalPower - a.totalPower else 0 := by
    simp +decide [compareEntries]
  have hcL : compareEntries a b "LOW" f =
      if a.sortValue - b.sortValue ≠ 0 then a.sortValue - b.sortValue
      else if f ≠ "ANY" then a.totalPower - b.totalPower else 0 := by
    simp +decide [compareEntries]
  have hhigh : compareEntries a b "HIGH" f < 0 ↔
      (b.sortValue < a.sortValue ∨
        (b.sortValue = a.sortValue ∧ f ≠ "ANY" ∧ b.totalPower < a.totalPower)) := by
    rw [hcH]
    exact key b.sortValue a.sortValue b.totalPower a.totalPower f
  have hlow : compareEntries a b "LOW" f < 0 ↔
      (a.sortValue < b.sortValue ∨
        (a.sortValue = b.sortValue ∧ f ≠ "ANY" ∧ a.totalPower < b.totalPower)) := by
    rw [hcL]
    exact key a.sortValue b.sortValue a.totalPower b.totalPower f
  refine ⟨hhigh, hlow, ?_, ?_⟩
  · intro o hf hsv
    simp [compareEntries, hsv, hf]
  · intro hsv hf ha hb
    exact hhigh.mpr (Or.inr ⟨hsv.symm, hf, by rw [ha, hb]; norm_num⟩)

/-- Witness for claim C6: the claim's own concrete tie (equal share,
total powers 80 and 40, filter Solar, direction HIGH) resolves in favour
of the 80-entry. -/
theorem claim6_witness :
    compareEntries ⟨⟨"x", "y", "z", none, none⟩, 1, 80⟩
        ⟨⟨"u", "v", "w", none, none⟩, 1, 40⟩ "HIGH" "Solar" < 0 := by
  exact (claim6_comparator _ _ "Solar").2.2.2 rfl (by decide) rfl rfl

/-! ## Pagination lemmas -/

theorem jsCeilDiv_eq_ceil (n : ℕ) : jsCeilDiv n PAGE_SIZE = Nat.ceil ((n : ℚ) / 16) := by
  show (n + 16 - 1) / 16 = Nat.ceil ((n : ℚ) / 16)
  rcases Nat.eq_zero_or_pos n with hn | hn
  · subst hn
    norm_num
  · apply le_antisymm
    · have h2 : (n + 16 - 1) / 16 - 1 < Nat.ceil ((n : ℚ) / 16) := by
        rw [Nat.lt_ceil, lt_div_iff₀ (by norm_num : (0 : ℚ) < 16)]
        have hnat : ((n + 16 - 1) / 16 - 1) * 16 < n := by omega
        exact_mod_cast hnat
      omega
    · rw [Nat.ceil_le, div_le_iff₀ (by norm_num : (0 : ℚ) < 16)]
      have hnat : n ≤ ((n + 16 - 1) / 16) * 16 := by omega
      exact_mod_cast hnat

theorem totalPagesOf_eq_max_ceil (n : ℕ) :
    totalPagesOf n = max 1 (Nat.ceil ((n : ℚ) / 16)) := by
  simp only [totalPagesOf, jsCeilDiv_eq_ceil]
  by_cases h : Nat.ceil ((n : ℚ) / 16) = 0
  · simp [h]
  · rw [if_neg h]
    omega

theorem one_le_totalPagesOf (n : ℕ) : 1 ≤ totalPagesOf n := by
  simp only [totalPagesOf]
  by_cases h : jsCeilDiv n PAGE_SIZE = 0 <;> simp [h]
  omega

theorem safePageOf_bounds (page : ℤ) {tp : ℕ} (htp : 1 ≤ tp) :
    1 ≤ safePageOf page tp ∧ safePageOf page tp ≤ (tp : ℤ) := by
  constructor
  · exact le_max_left _ _
  · apply max_le
    · exact_mod_cast htp
    · exact min_le_right _ _

theorem sanitizeEntries_ok (l : List SortedEntry)
    (h : ∀ se ∈ l, se.entry.appliances ≠ none) :
    ∃ out, sanitizeEntries l = .ok out := by
  induction l with
  | nil => exact ⟨[], rfl⟩
  | cons se rest ih =>
      obtain ⟨out, hout⟩ := ih (fun x hx => h x (List.mem_cons_of_mem se hx))
      match happ : se.entry.appliances with
      | none => exact absurd happ (h se (List.mem_cons_self se rest))
      | some apps =>
          refine ⟨⟨se.entry.address, se.entry.region,
            apps.map (fun app => ⟨app.typeName, app.hours, app.quantity⟩),
            se.entry.publicId⟩ :: out, ?_⟩
          simp [sanitizeEntries, sanitizeEntry, happ, hout]

theorem entry_mem_of_mem_sortedEntriesOf
    {types : List ApplianceTypeModel} {entries : List Entry}
    {atf psf rf so : String} {se : SortedEntry}
    (h : se ∈ sortedEntriesOf types entries atf psf rf so) : se.entry ∈ entries := by
  simp only [sortedEntriesOf, List.mem_mergeSort, List.mem_map] at h
  obtain ⟨e, he, rfl⟩ := h
  exact List.mem_of_mem_filter he

theorem length_sortedEntriesOf (types : List ApplianceTypeModel) (entries : List Entry)
    (atf psf rf so : String) :
    (sortedEntriesOf types entries atf psf rf so).length =
      (entries.filter (entryPassesFilter rf atf)).length := by
  simp [sortedEntriesOf]

/-- Full success specification of `getEntries` for a readable store whose
entries all carry an appliance array: the response exists and its
pagination fields satisfy the ceiling/clamping laws. -/
theorem getEntries_spec (types : List ApplianceTypeModel) (entries : List Entry)
    (req : QueryRequest) (hwf : ∀ e ∈ entries, e.appliances ≠ none) :
    ∃ r : QueryResult, getEntries types (some entries) req = .ok r ∧
      r.totalEntries = (entries.filter (entryPassesFilter (strOr req.region "ALL")
        (strOr req.appType "ANY"))).length ∧
      r.totalPages = max 1 (Nat.ceil ((r.totalEntries : ℚ) / 16)) ∧
      r.currentPage = max 1 (min req.pageNum (r.totalPages : ℤ)) ∧
      1 ≤ r.currentPage ∧ r.currentPage ≤ (r.totalPages : ℤ) ∧
      (r.totalEntries = 33 → r.totalPages = 3) ∧
      (r.totalEntries = 33 → req.page = some 99 → r.currentPage = 3) ∧
      ((req.page = some 0 ∨ ∃ n : ℤ, n < 0 ∧ req.page = some n) → r.currentPage = 1) := by
  set atf := strOr req.appType "ANY" with hatf
  set psf := strOr req.powerSource "GREEN" with hpsf
  set rf := strOr req.region "ALL" with hrf
  set so := strOr req.sortOrder "HIGH" with hso
  set sorted := sortedEntriesOf types entries atf psf rf so with hsorted
  set N := sorted.length with hN
  set tp := totalPagesOf N with htp
  set sp := safePageOf req.pageNum tp with hsp
  set slice := (sorted.drop ((sp - 1) * (PAGE_SIZE : ℤ)).toNat).take PAGE_SIZE with hslice
  have hsl : ∀ se ∈ slice, se.entry.appliances ≠ none := by
    intro se hse
    have h1 : se ∈ sorted := List.drop_subset _ _ (List.take_subset _ _ hse)
    exact hwf se.entry (entry_mem_of_mem_sortedEntriesOf h1)
  obtain ⟨out, hout⟩ := sanitizeEntries_ok slice hsl
  have htp1 : 1 ≤ tp := htp ▸ one_le_totalPagesOf N
  refine ⟨⟨out, sp, tp, N⟩, ?_, ?_, ?_, ?_, ?_, ?_, ?_, ?_, ?_⟩
  · have hdef : getEntries types (some entries) req =
        (match sanitizeEntries slice with
         | .error err => .error err
         | .ok sanitized => .ok ⟨sanitized, sp, tp, N⟩) := rfl
    rw [hdef, hout]
  · exact hN ▸ length_sortedEntriesOf types entries atf psf rf so
  · exact htp ▸ totalPagesOf_eq_max_ceil N
  · exact hsp
  · exact (safePageOf_bounds req.pageNum htp1).1
  · exact (safePageOf_bounds req.pageNum htp1).2
  · intro h33
    replace h33 : N = 33 := h33
    show tp = 3
    rw [htp, h33]
    decide
  · intro h33 hp
    replace h33 : N = 33 := h33
    show sp = 3
    rw [hsp, htp, h33]
    norm_num [safePageOf, totalPagesOf, jsCeilDiv, PAGE_SIZE, QueryRequest.pageNum, hp]
  · rintro (h0 | ⟨n, hneg, hp⟩)
    · show sp = 1
      rw [hsp, safePageOf]
      have hpn : req.pageNum = 1 := by simp [QueryRequest.pageNum, h0]
      rw [hpn]
      omega
    · show sp = 1
      rw [hsp, safePageOf]
      have hpn : req.pageNum = n := by
        simp [QueryRequest.pageNum, hp, show ¬n = 0 by omega]
      rw [hpn]
      omega

/-- Claim C7: for a readable store and well-formed entries, `getEntries`
always answers (no error for any requested page): `totalPages` is
`ceil(totalEntries / 16)` floored at `1`, and the requested page is clamped
into `[1, totalPages]`; with 33 matching entries `totalPages` is `3`, page
99 clamps to 3, and page 0 or a negative page clamps to 1. -/
theorem claim7_pagination (types : List ApplianceTypeModel) (entries : List Entry)
    (req : QueryRequest) (hwf : ∀ e ∈ entries, e.appliances ≠ none) :
    ∃ r : QueryResult, getEntries types (some entries) req = .ok r ∧
      r.totalEntries = (entries.filter (entryPassesFilter (strOr req.region "ALL")
        (strOr req.appType "ANY"))).length ∧
      r.totalPages = max 1 (Nat.ceil ((r.totalEntries : ℚ) / 16)) ∧
      r.currentPage = max 1 (min req.pageNum (r.totalPages : ℤ)) ∧
      1 ≤ r.currentPage ∧ r.currentPage ≤ (r.totalPages : ℤ) ∧
      (r.totalEntries = 33 → r.totalPages = 3) ∧
      (r.totalEntries = 33 → req.page = some 99 → r.currentPage = 3) ∧
      ((req.page = some 0 ∨ ∃ n : ℤ, n < 0 ∧ req.page = some n) → r.currentPage = 1) :=
  getEntries_spec types entries req hwf

/-- Witness for claim C7: 33 identical entries, page request 99. -/
theorem claim7_witness :
    ∃ r : QueryResult,
      getEntries ApplianceTypeModel.types
          (some (List.replicate 33 (⟨"p", "q", "a", some "NSW", some []⟩ : Entry)))
          ⟨some 99, none, none, none, none⟩ = .ok r ∧
      r.totalEntries = ((List.replicate 33 (⟨"p", "q", "a", some "NSW", some []⟩ : Entry)).filter
        (entryPassesFilter (strOr none "ALL") (strOr none "ANY"))).length ∧
      r.totalPages = max 1 (Nat.ceil ((r.totalEntries : ℚ) / 16)) ∧
      r.currentPage = max 1 (min (QueryRequest.pageNum ⟨some 99, none, none, none, none⟩)
        (r.totalPages : ℤ)) ∧
      1 ≤ r.currentPage ∧ r.currentPage ≤ (r.totalPages : ℤ) ∧
      (r.totalEntries = 33 → r.totalPages = 3) ∧
      (r.totalEntries = 33 →
        QueryRequest.page ⟨some 99, none, none, none, none⟩ = some 99 → r.currentPage = 3) ∧
      ((QueryRequest.page ⟨some 99, none, none, none, none⟩ = some 0 ∨
        ∃ n : ℤ, n < 0 ∧ QueryRequest.page ⟨some 99, none, none, none, none⟩ = some n) →
        r.currentPage = 1) := by
  exact claim7_pagination ApplianceTypeModel.types _ _
    (by
      intro e he
      rw [List.eq_of_mem_replicate he]
      simp)

/-! ## Sanitization lemmas -/

theorem mem_sanitizeEntries {l : List SortedEntry} {out : List SanitizedEntry}
    (h : sanitizeEntries l = .ok out) :
    ∀ s ∈ out, ∃ se ∈ l, sanitizeEntry se = .ok s := by
  induction l generalizing out with
  | nil =>
      simp only [sanitizeEntries, Except.ok.injEq] at h
      subst h
      intro s hs
      simp at hs
  | cons se rest ih =>
      cases hse : sanitizeEntry se with
      | error err => rw [sanitizeEntries, hse] at h; cases h
      | ok s0 =>
          cases hrest : sanitizeEntries rest with
          | error err => rw [sanitizeEntries, hse, hrest] at h; cases h
          | ok ss =>
              rw [sanitizeEntries, hse, hrest] at h
              simp only [Except.ok.injEq] at h
              subst h
              intro s hs
              rcases List.mem_cons.mp hs with rfl | hmem
              · exact ⟨se, List.mem_cons_self se rest, hse⟩
              · obtain ⟨se', hse', h'⟩ := ih hrest s hmem
                exact ⟨se', List.mem_cons_of_mem se hse', h'⟩

theorem sanitizeEntry_ok {se : SortedEntry} {s : SanitizedEntry}
    (h : sanitizeEntry se = .ok s) :
    ∃ apps, se.entry.appliances = some apps ∧
      s = ⟨se.entry.address, se.entry.region,
        apps.map (fun app => ⟨app.typeName, app.hours, app.quantity⟩),
        se.entry.publicId⟩ := by
  cases happ : se.entry.appliances with
  | none => rw [sanitizeEntry, happ] at h; cases h
  | some apps =>
      rw [sanitizeEntry, happ] at h
      simp only [Except.ok.injEq] at h
      exact ⟨apps, rfl, h.symm⟩

/-- Claim C9: every entry of a returned leaderboard page is exactly the
sanitized projection of some stored entry — the fields `address`, `region`,
`appliances` (each appliance reduced to its type/hours/quantity) and
`publicId`, into the `SanitizedEntry` shape that carries no `privateId`
field. -/
theorem claim9_sanitized_projection (types : List ApplianceTypeModel)
    (entries : List Entry) (req : QueryRequest) (r : QueryResult)
    (h : getEntries types (some entries) req = .ok r) :
    ∀ s ∈ r.entries, ∃ e ∈ entries, ∃ apps, e.appliances = some apps ∧
      s = ⟨e.address, e.region,
        apps.map (fun app => ⟨app.typeName, app.hours, app.quantity⟩), e.publicId⟩ := by
  set atf := strOr req.appType "ANY" with hatf
  set psf := strOr req.powerSource "GREEN" with hpsf
  set rf := strOr req.region "ALL" with hrf
  set so := strOr req.sortOrder "HIGH" with hso
  set sorted := sortedEntriesOf types entries atf psf rf so with hsorted
  set slice := (sorted.drop
    ((safePageOf req.pageNum (totalPagesOf sorted.length) - 1) * (PAGE_SIZE : ℤ)).toNat).take
    PAGE_SIZE with hslice
  have hdef : getEntries types (some entries) req =
      (match sanitizeEntries slice with
       | .error err => .error err
       | .ok sanitized =>
           .ok ⟨sanitized, safePageOf req.pageNum (totalPagesOf sorted.length),
             totalPagesOf sorted.length, sorted.length⟩) := rfl
  rw [hdef] at h
  cases hval : sanitizeEntries slice with
  | error err => rw [hval] at h; cases h
  | ok out =>
      rw [hval] at h
      simp only [Except.ok.injEq] at h
      subst h
      intro s hs
      obtain ⟨se, hsem, hok⟩ := mem_sanitizeEntries hval s hs
      have hsesorted : se ∈ sorted := List.drop_subset _ _ (List.take_subset _ _ hsem)
      obtain ⟨apps, happ, hsform⟩ := sanitizeEntry_ok hok
      exact ⟨se.entry, entry_mem_of_mem_sortedEntriesOf hsesorted, apps, happ, hsform⟩

/-- Witness for claim C9 on a concrete one-entry store: the single page
entry is the sanitized projection of the stored entry. -/
theorem claim9_witness :
    ∃ e ∈ [(⟨"p", "q", "a", some "NSW", some []⟩ : Entry)], ∃ apps,
      e.appliances = some apps ∧
      (⟨"a", some "NSW", [], "p"⟩ : SanitizedEntry) = ⟨e.address, e.region,
        apps.map (fun app => ⟨app.typeName, app.hours, app.quantity⟩), e.publicId⟩ := by
  exact claim9_sanitized_projection ApplianceTypeModel.types
    [⟨"p", "q", "a", some "NSW", some []⟩] ⟨none, none, some "ANY", none, none⟩
    ⟨[⟨"a", some "NSW", [], "p"⟩], 1, 1, 1⟩ (by
      simp +decide [getEntries, getEntriesCore, sortedEntriesOf, entryPassesFilter,
        calculateSortValues, getLocationPower, compareEntries, sanitizeEntries, sanitizeEntry,
        totalPagesOf, jsCeilDiv, PAGE_SIZE, safePageOf, QueryRequest.pageNum, strOr,
        List.mergeSort_singleton, RegionPowerModel.data, getOr0])
    ⟨"a", some "NSW", [], "p"⟩ (by simp)

/-- Claim C10: a leaderboard request with absent (or empty-string) filter
parameters behaves exactly as the explicit default request — power source
`"GREEN"` (green-share scoring), appliance type `"ANY"`, region `"ALL"`,
sort direction `"HIGH"`. -/
theorem claim10_default_parameters (types : List ApplianceTypeModel)
    (data : Option (List Entry)) (page : Option ℤ) :
    getEntries types data ⟨page, none, none, none, none⟩ =
      getEntries types data ⟨page, some "ANY", some "GREEN", some "ALL", some "HIGH"⟩ ∧
    getEntries types data ⟨page, some "", some "", some "", some ""⟩ =
      getEntries types data ⟨page, some "ANY", some "GREEN", some "ALL", some "HIGH"⟩ := by
  constructor <;> simp +decide [getEntries, strOr, QueryRequest.pageNum]

/-! ## Behaviour of unrecognized request parameters -/

theorem compareEntries_ne_HIGH (a b : SortedEntry) {s : String} (f : String)
    (hs : s ≠ "HIGH") : compareEntries a b s f = compareEntries a b "LOW" f := by
  simp +decide [compareEntries, hs]

theorem sortedEntriesOf_ne_HIGH (types : List ApplianceTypeModel) (entries : List Entry)
    (atf psf rf : String) {s : String} (hs : s ≠ "HIGH") :
    sortedEntriesOf types entries atf psf rf s =
      sortedEntriesOf types entries atf psf rf "LOW" := by
  have hfun : (fun a b => decide (compareEntries a b s psf ≤ 0)) =
      (fun a b => decide (compareEntries a b "LOW" psf ≤ 0)) := by
    funext a b
    rw [compareEntries_ne_HIGH a b psf hs]
  simp only [sortedEntriesOf, hfun]

theorem getEntriesCore_ne_HIGH (types : List ApplianceTypeModel)
    (data : Option (List Entry)) (page : ℤ) (atf psf rf : String) {s : String}
    (hs : s ≠ "HIGH") :
    getEntriesCore types data page atf psf rf s =
      getEntriesCore types data page atf psf rf "LOW" := by
  cases data with
  | none => rfl
  | some entries =>
      simp only [getEntriesCore, sortedEntriesOf_ne_HIGH types entries atf psf rf hs]

theorem getOr0_quad (a b c d : ℚ) {k : String} (h1 : k ≠ "wind") (h2 : k ≠ "solar")
    (h3 : k ≠ "gas") (h4 : k ≠ "coal") :
    getOr0 [("wind", a), ("solar", b), ("gas", c), ("coal", d)] k = 0 := by
  simp [getOr0, Ne.symm h1, Ne.symm h2, Ne.symm h3, Ne.symm h4]

theorem calculateSortValues_unknown_source (types : List ApplianceTypeModel) (e : Entry)
    {p : String} (hg : p ≠ "GREEN") (ha : p ≠ "ANY")
    (hk : jsToLower p ∉ ["wind", "solar", "gas", "coal"]) :
    (calculateSortValues types e p).sortValue = 0 := by
  simp only [List.mem_cons, List.mem_singleton, not_or] at hk
  obtain ⟨h1, h2, h3, h4, -⟩ := hk
  simp only [calculateSortValues, if_neg hg, if_pos ha]
  cases hr : RegionPowerModel.data.find? (fun r => some r.name = e.region) with
  | none => simp
  | some r =>
      have hmem : r ∈ RegionPowerModel.data := List.mem_of_find?_eq_some hr
      simp only [RegionPowerModel.data, List.mem_cons, List.mem_singleton,
        List.not_mem_nil, or_false] at hmem
      rcases hmem with rfl | rfl | rfl | rfl | rfl | rfl | rfl | rfl <;>
        simp [getOr0_quad _ _ _ _ h1 h2 h3 h4]

theorem filter_eq_nil_of_false {entries : List Entry} {rf atf : String}
    (h : ∀ e ∈ entries, entryPassesFilter rf atf e = false) :
    entries.filter (entryPassesFilter rf atf) = [] := by
  induction entries with
  | nil => rfl
  | cons e rest ih =>
      rw [List.filter_cons, if_neg (by simp [h e (List.mem_cons_self e rest)])]
      exact ih (fun x hx => h x (List.mem_cons_of_mem e hx))

theorem getEntriesCore_empty_filter (types : List ApplianceTypeModel)
    (entries : List Entry) (page : ℤ) (atf psf rf so : String)
    (hfil : entries.filter (entryPassesFilter rf atf) = []) :
    getEntriesCore types (some entries) page atf psf rf so = .ok ⟨[], 1, 1, 0⟩ := by
  have hsorted : sortedEntriesOf types entries atf psf rf so = [] := by
    simp [sortedEntriesOf, hfil]
  simp only [getEntriesCore, hsorted, List.length_nil, List.drop_nil, List.take_nil]
  have htp : totalPagesOf 0 = 1 := by decide
  have hsp : safePageOf page 1 = 1 := by
    simp only [safePageOf]
    omega
  rw [htp]
  simp only [sanitizeEntries, hsp]

/-- A concrete two-entry store used to exercise the leaderboard engine on
unrecognized request parameters. -/
def twoRegionStore : List Entry :=
  [⟨"pub1", "prv1", "a1", some "NSW", some []⟩,
   ⟨"pub2", "prv2", "a2", some "SA", some []⟩]

/-- Counterexample to claim C8: the unrecognized region filter `"ZZZ"` is
not treated as the default `"ALL"` — it is applied literally, matching no
entry, so the response differs from the default request's response. -/
theorem claim8_counterexample :
    getEntries ApplianceTypeModel.types (some twoRegionStore)
        ⟨none, none, none, some "ZZZ", none⟩ ≠
      getEntries ApplianceTypeModel.types (some twoRegionStore)
        ⟨none, none, none, some "ALL", none⟩ := by
  have hfil : twoRegionStore.filter
      (entryPassesFilter (strOr (some "ZZZ") "ALL") (strOr none "ANY")) = [] := by decide
  have hL : getEntries ApplianceTypeModel.types (some twoRegionStore)
      ⟨none, none, none, some "ZZZ", none⟩ = .ok ⟨[], 1, 1, 0⟩ := by
    exact getEntriesCore_empty_filter _ _ _ _ _ _ _ hfil
  obtain ⟨r, hR, hT, -⟩ := getEntries_spec ApplianceTypeModel.types twoRegionStore
    ⟨none, none, none, some "ALL", none⟩ (by decide)
  have hlen : (twoRegionStore.filter
      (entryPassesFilter (strOr (some "ALL") "ALL") (strOr none "ANY"))).length = 2 := by
    decide
  intro heq
  rw [hL, hR] at heq
  obtain rfl : (⟨[], 1, 1, 0⟩ : QueryResult) = r := by simpa using heq
  rw [hlen] at hT
  simp at hT

/-- Claim C8 as amended: absent or empty parameters fall back to the
defaults, but unrecognized non-empty values are used literally rather than
mapped to defaults — a sort direction other than `"HIGH"` sorts ascending
exactly like `"LOW"`, a power-source filter matching no mix key scores
every entry `0`, and a region or appliance-type filter matching no entry
yields the empty first page. -/
theorem claim8_amended (types : List ApplianceTypeModel) :
    (∀ (data : Option (List Entry)) (req : QueryRequest) (s : String),
      s ≠ "HIGH" → s ≠ "" →
      getEntries types data { req with sortOrder := some s } =
        getEntries types data { req with sortOrder := some "LOW" }) ∧
    (∀ (e : Entry) (p : String), p ≠ "GREEN" → p ≠ "ANY" →
      jsToLower p ∉ ["wind", "solar", "gas", "coal"] →
      (calculateSortValues types e p).sortValue = 0) ∧
    (∀ (entries : List Entry) (req : QueryRequest) (rg : String),
      rg ≠ "ALL" → rg ≠ "" → (∀ e ∈ entries, e.region ≠ some rg) →
      getEntries types (some entries) { req with region := some rg } = .ok ⟨[], 1, 1, 0⟩) ∧
    (∀ (entries : List Entry) (req : QueryRequest) (t : String),
      t ≠ "ANY" → t ≠ "" →
      (∀ e ∈ entries, ∀ apps, e.appliances = some apps →
        ∀ ap ∈ apps, ap.typeName ≠ some t) →
      getEntries types (some entries) { req with appType := some t } = .ok ⟨[], 1, 1, 0⟩) := by
  refine ⟨?_, ?_, ?_, ?_⟩
  · intro data req s hs1 hs2
    simp only [getEntries]
    rw [show strOr (some s) "HIGH" = s from by simp [strOr, hs2]]
    exact getEntriesCore_ne_HIGH types data _ _ _ _ hs1
  · intro e p hg ha hk
    exact calculateSortValues_unknown_source types e hg ha hk
  · intro entries req rg h1 h2 hmatch
    simp only [getEntries]
    apply getEntriesCore_empty_filter
    rw [show strOr (some rg) "ALL" = rg from by simp [strOr, h2]]
    apply filter_eq_nil_of_false
    intro e he
    simp [entryPassesFilter, h1, hmatch e he]
  · intro entries req t h1 h2 hmatch
    simp only [getEntries]
    apply getEntriesCore_empty_filter
    rw [show strOr (some t) "ANY" = t from by simp [strOr, h2]]
    apply filter_eq_nil_of_false
    intro e he
    simp only [entryPassesFilter]
    by_cases hc : strOr req.region "ALL" ≠ "ALL" ∧ e.region ≠ some (strOr req.region "ALL")
    · rw [if_pos hc]
    · rw [if_neg hc, if_pos h1]
      cases happ : e.appliances with
      | none => rfl
      | some apps =>
          simp only [List.any_eq_false]
          intro ap hap
          simpa using hmatch e he apps happ ap hap

/-- Witness for the amended claim C8 at concrete unrecognized parameter
values (`"MID"`, `"Nuclear"`, `"ZZZ"`, `"Jetpack"`). -/
theorem claim8_witness :
    getEntries ApplianceTypeModel.types (some twoRegionStore)
        ⟨none, none, none, none, some "MID"⟩ =
      getEntries ApplianceTypeModel.types (some twoRegionStore)
        ⟨none, none, none, none, some "LOW"⟩ ∧
    (calculateSortValues ApplianceTypeModel.types
        ⟨"pub1", "prv1", "a1", some "NSW", some []⟩ "Nuclear").sortValue = 0 ∧
    getEntries ApplianceTypeModel.types (some twoRegionStore)
        ⟨none, none, none, some "ZZZ", none⟩ = .ok ⟨[], 1, 1, 0⟩ ∧
    getEntries ApplianceTypeModel.types (some twoRegionStore)
        ⟨none, some "Jetpack", none, none, none⟩ = .ok ⟨[], 1, 1, 0⟩ := by
  refine ⟨?_, ?_, ?_, ?_⟩
  · exact (claim8_amended ApplianceTypeModel.types).1 (some twoRegionStore)
      ⟨none, none, none, none, none⟩ "MID" (by decide) (by decide)
  · exact (claim8_amended ApplianceTypeModel.types).2.1 _ "Nuclear"
      (by decide) (by decide) (by decide)
  · exact (claim8_amended ApplianceTypeModel.types).2.2.1 twoRegionStore
      ⟨none, none, none, none, none⟩ "ZZZ" (by decide) (by decide) (by decide)
  · exact (claim8_amended ApplianceTypeModel.types).2.2.2 twoRegionStore
      ⟨none, none, none, none, none⟩ "Jetpack" (by decide) (by decide) (by decide)

end EnergyTracker
